import Mathlib

/-!
Verification of the kanban_api Go service: a shallow embedding of the
user store, board store, auth service, board service, auth middleware and
the board update handler, together with theorems checking the stated
properties of each component.

Modelling conventions:
* Go strings are Lean Strings; the Go standard library functions used by
  the code (strings.TrimSpace, strings.ToLower, strings.HasPrefix,
  strings.TrimPrefix) are embedded as executable functions on the
  character list underlying a String, restricted to the code points the
  service manipulates (ASCII plus the two extra Unicode space code points
  of unicode.IsSpace in Latin-1).
* time.Time values are Nat instants; time.Now() is passed explicitly as a
  parameter by the caller, as is every generateID() result, so that the
  nondeterminism of the clock and of UUID generation becomes explicit
  input.
* Go maps are association lists with exact-key lookup, insertion
  overwriting the key, and deletion; each operation of a repository takes
  the store state and returns the result together with the next state.
* Go error values are their message strings (every error in the service
  is built by errors.New with a fixed message); a fallible call returns
  Except String.
* bcrypt and the JWT wire format (HMAC-SHA256, compact base64 encoding)
  are external libraries: they are abstracted as function parameters
  bundled in CryptoModel, and theorems state the assumptions they use
  about them (for example, that bcrypt verification accepts the hash
  bcrypt produced, or that the compact decoder inverts the encoder on the
  one token at hand).
-/

namespace Kanban

/-- Whether a character is whitespace for the purposes of
strings.TrimSpace (unicode.IsSpace over the Latin-1 range). -/
def isSpaceChar (c : Char) : Bool :=
  c == ' ' || c == '\t' || c == '\n' || c == '\x0b' || c == '\x0c' || c == '\r' ||
    c == '\u0085' || c == '\u00A0'

/-- Embeds strings.TrimSpace: drop leading and trailing whitespace. -/
def goTrimSpace (s : String) : String :=
  ⟨((s.data.dropWhile isSpaceChar).reverse.dropWhile isSpaceChar).reverse⟩

/-- Lower-casing of one character, as unicode.ToLower acts on ASCII. -/
def goToLowerChar (c : Char) : Char :=
  if 'A' ≤ c ∧ c ≤ 'Z' then Char.ofNat (c.toNat + 32) else c

/-- Embeds strings.ToLower, character by character. -/
def goToLower (s : String) : String := ⟨s.data.map goToLowerChar⟩

/-- Embeds strings.HasPrefix. -/
def goStartsWith (s pre : String) : Bool := pre.data.isPrefixOf s.data

/-- Embeds strings.TrimPrefix: remove pre from the front of s when
present, otherwise return s unchanged. -/
def goTrimPre (s pre : String) : String :=
  if goStartsWith s pre then ⟨s.data.drop pre.data.length⟩ else s

/-- The email normalization both authService.Register and
authService.Login perform before touching the store:
strings.TrimSpace(strings.ToLower(email)) (service/auth.go). -/
def normalizeEmail (email : String) : String := goTrimSpace (goToLower email)

/-- Lookup in a Go map modelled as an association list: the first binding
of exactly this key, if any. -/
def mapFind {α : Type} : List (String × α) → String → Option α
  | [], _ => none
  | p :: m, k => if p.1 = k then some p.2 else mapFind m k

/-- Removal of a key from a Go map modelled as an association list
(the delete builtin). -/
def mapErase {α : Type} : List (String × α) → String → List (String × α)
  | [], _ => []
  | p :: m, k => if p.1 = k then mapErase m k else p :: mapErase m k

/-- Assignment m[k] = v on a Go map modelled as an association list:
the new binding replaces any binding of the same key. -/
def mapInsert {α : Type} (m : List (String × α)) (k : String) (v : α) : List (String × α) :=
  (k, v) :: mapErase m k

/-- model.User (internal/model/user.go): CreatedAt is a Nat instant. -/
structure User where
  ID : String
  Email : String
  PasswordHash : String
  CreatedAt : Nat
deriving DecidableEq

/-- The zero value of model.User, which Go map indexing and the sqlite
row scan produce when nothing was written. -/
def User.zeroValue : User := { ID := "", Email := "", PasswordHash := "", CreatedAt := 0 }

/-- model.Board (internal/model/board.go). -/
structure Board where
  ID : String
  Title : String
  CreatedAt : Nat
  UpdatedAt : Nat
deriving DecidableEq

/-- repository.ErrUserExists (internal/repository/user.go), as its
message string. -/
def ErrUserExists : String := "user already exists"

/-- repository.ErrNotFound (internal/repository/board.go), as its
message string. -/
def ErrNotFound : String := "not found"

/-- The claims the service signs into each JWT: the custom email claim
plus the registered claims it fills (service/auth.go customClaims,
middleware/auth.go CustomClaims). -/
structure customClaims where
  email : String
  subject : String
  issuedAt : Nat
  expiresAt : Nat
  issuer : String
deriving DecidableEq

/-- A parsed JWT: its claims and the signature segment carried with
them. The base64 wire form is abstracted by CryptoModel. -/
structure SignedToken where
  claims : customClaims
  sig : String
deriving DecidableEq

/-- The external cryptography and serialization the service links
against, abstracted: bcrypt hashing and verification (bverify h p is
true exactly when bcrypt.CompareHashAndPassword(h, p) returns nil),
HMAC-SHA256 over the encoded claims, the compact JWT serializer, and the
parsing phase of jwt.ParseWithClaims. -/
structure CryptoModel where
  bhash : String → String
  bverify : String → String → Bool
  hmac : String → customClaims → String
  encode : SignedToken → String
  parseTok : String → Option SignedToken

/-- memUserRepo (internal/repository/user.go): the users map keyed by ID
and the email index keyed by the exact email string. -/
structure memUserRepo where
  users : List (String × User)
  emailIdx : List (String × String)
deriving DecidableEq

/-- The state NewMemUserRepo returns: both maps empty. -/
def memUserRepo.empty : memUserRepo := { users := [], emailIdx := [] }

/-- memUserRepo.Create (internal/repository/user.go lines 71 to 104):
reject when the email is already in the index, otherwise insert the new
user into both maps. newId is the generateID() result and now the
time.Now() instant. -/
def memUserRepo.Create (r : memUserRepo) (newId : String) (now : Nat)
    (email password : String) : (Except String User) × memUserRepo :=
  match mapFind r.emailIdx email with
  | some _ => (.error ErrUserExists, r)
  | none =>
    let u : User := { ID := newId, Email := email, PasswordHash := password, CreatedAt := now }
    (.ok u, { users := mapInsert r.users u.ID u, emailIdx := mapInsert r.emailIdx email u.ID })

/-- memUserRepo.GetByEmail (internal/repository/user.go lines 107 to
125): look the exact email up in the index, then read the users map,
whose indexing yields the zero value when the entry is missing. -/
def memUserRepo.GetByEmail (r : memUserRepo) (email : String) : Except String User :=
  match mapFind r.emailIdx email with
  | none => .error ErrNotFound
  | some id => .ok ((mapFind r.users id).getD User.zeroValue)

/-- memUserRepo.GetByID (internal/repository/user.go lines 128 to 139). -/
def memUserRepo.GetByID (r : memUserRepo) (id : String) : Except String User :=
  match mapFind r.users id with
  | none => .error ErrNotFound
  | some u => .ok u

/-- sqliteUserRep.Create (internal/repository/user_sqlite.go lines 42 to
54): build the row and hand it to the INSERT. The user_rows table as
migrated from userRow declares ID as the only key, so the only error the
INSERT itself can raise with this schema is a primary-key collision; in
particular no uniqueness of Email is enforced anywhere on this path. -/
def sqliteUserRep.Create (table : List User) (newId : String) (now : Nat)
    (email passwordHash : String) : (Except String User) × List User :=
  let rw : User := { ID := newId, Email := email, PasswordHash := passwordHash, CreatedAt := now }
  if table.any (fun q => decide (q.ID = newId)) then
    (.error "UNIQUE constraint failed: user_rows.id", table)
  else (.ok rw, table ++ [rw])

/-- The three outcomes of a gorm First query: a row, the dedicated
gorm.ErrRecordNotFound, or any other database error. -/
inductive DBRes (α : Type) where
  | found (a : α)
  | recordNotFound
  | otherErr (msg : String)

/-- The First(&rw, "email = ?", email) query of sqliteUserRep.GetByEmail
against a table with no failing backend: the first row with this exact
email, or record-not-found. -/
def dbFirstUserByEmail (table : List User) (email : String) : DBRes User :=
  match table.find? (fun q => decide (q.Email = email)) with
  | some q => .found q
  | none => .recordNotFound

/-- sqliteUserRep.GetByEmail (internal/repository/user_sqlite.go lines
56 to 65) as a function of the query outcome: a found row is returned,
gorm.ErrRecordNotFound becomes ErrNotFound, and any other database error
is returned as the zero-value user with a nil error (the code returns
model.User{}, nil on that branch). -/
def sqliteUserRep.GetByEmail (res : DBRes User) : Except String User :=
  match res with
  | .found rw => .ok rw
  | .recordNotFound => .error ErrNotFound
  | .otherErr _ => .ok User.zeroValue

/-- memBoardRepo (internal/repository/board.go): the boards map keyed by
board ID. -/
structure memBoardRepo where
  boards : List (String × Board)
deriving DecidableEq

/-- memBoardRepo.Get (internal/repository/board.go lines 70 to 81). -/
def memBoardRepo.Get (r : memBoardRepo) (id : String) : Except String Board :=
  match mapFind r.boards id with
  | none => .error ErrNotFound
  | some b => .ok b

/-- memBoardRepo.Create (internal/repository/board.go lines 84 to 102):
mint the board with CreatedAt = UpdatedAt = now and store it; it always
succeeds. -/
def memBoardRepo.Create (r : memBoardRepo) (newId : String) (now : Nat)
    (title : String) : (Except String Board) × memBoardRepo :=
  let b : Board := { ID := newId, Title := title, CreatedAt := now, UpdatedAt := now }
  (.ok b, { boards := mapInsert r.boards b.ID b })

/-- memBoardRepo.Update (internal/repository/board.go lines 105 to 124):
not-found when the ID is absent, otherwise rewrite Title and UpdatedAt
and put the copy back. -/
def memBoardRepo.Update (r : memBoardRepo) (now : Nat) (id title : String) :
    (Except String Board) × memBoardRepo :=
  match mapFind r.boards id with
  | none => (.error ErrNotFound, r)
  | some b =>
    let b2 : Board := { b with Title := title, UpdatedAt := now }
    (.ok b2, { boards := mapInsert r.boards id b2 })

/-- memBoardRepo.Delete (internal/repository/board.go lines 127 to 140). -/
def memBoardRepo.Delete (r : memBoardRepo) (id : String) :
    (Except String Unit) × memBoardRepo :=
  match mapFind r.boards id with
  | none => (.error ErrNotFound, r)
  | some _ => (.ok (), { boards := mapErase r.boards id })

/-- sqliteBoardRepo.Update (internal/repository/user_sqlite.go lines 246
to 269, in the board repository part of that file): First the row by ID,
not-found when absent, otherwise set Title and UpdatedAt and Save, which
rewrites the row with that primary key. -/
def sqliteBoardRepo.Update (table : List Board) (now : Nat) (id title : String) :
    (Except String Board) × List Board :=
  match table.find? (fun b => decide (b.ID = id)) with
  | none => (.error ErrNotFound, table)
  | some b =>
    let b2 : Board := { b with Title := title, UpdatedAt := now }
    (.ok b2, table.map (fun q => if q.ID = id then b2 else q))

/-- The configuration part of authService (service source, part_002):
the signing secret and the token lifetime. The store it talks to is
passed per call as explicit state. -/
structure authService where
  jwtSecret : String
  tokenTTL : Nat

/-- authService.issueToken (part_002 lines 142 to 174): claims with the
user id as subject, the email claim, issuer kanban_api, issued-at now and
expires-at now plus the configured TTL, signed with HMAC-SHA256 under
the service secret. -/
def authService.issueToken (s : authService) (C : CryptoModel) (now : Nat)
    (u : User) : SignedToken :=
  let claims : customClaims :=
    { email := u.Email, subject := u.ID, issuedAt := now,
      expiresAt := now + s.tokenTTL, issuer := "kanban_api" }
  { claims := claims, sig := C.hmac s.jwtSecret claims }

/-- authService.Register (part_002 lines 56 to 93): normalize the email,
reject empty email or password, bcrypt-hash the password, create the
user in the store, and issue a token for the new user. -/
def authService.Register (s : authService) (C : CryptoModel) (r : memUserRepo)
    (newId : String) (now : Nat) (email password : String) :
    (Except String (User × SignedToken)) × memUserRepo :=
  let email := normalizeEmail email
  if email = "" ∨ password = "" then (.error "email and password required", r)
  else
    let hash := C.bhash password
    match r.Create newId now email hash with
    | (.error e, r2) => (.error e, r2)
    | (.ok u, r2) => (.ok (u, s.issueToken C now u), r2)

/-- authService.Login (part_002 lines 96 to 121): normalize the email,
look it up, and verify the password against the stored bcrypt hash; any
lookup failure and any hash mismatch both yield the one generic
invalid-credentials error. -/
def authService.Login (s : authService) (C : CryptoModel) (r : memUserRepo)
    (now : Nat) (email password : String) : Except String (User × SignedToken) :=
  let email := normalizeEmail email
  match r.GetByEmail email with
  | .error _ => .error "invalid credentials"
  | .ok u =>
    if C.bverify u.PasswordHash password then .ok (u, s.issueToken C now u)
    else .error "invalid credentials"

/-- middleware.AuthRequired (internal/middleware/auth.go lines 21 to
79) acting on the Authorization header of one request: reject when the
header does not carry the Bearer scheme, then parse the compact token,
check the HMAC-SHA256 signature under the configured secret and check
expiry (jwt v5 accepts exactly when the current instant is before the
expires-at claim); on success the verified claims are what the
middleware injects into the request context (userID = subject). -/
def AuthRequired (C : CryptoModel) (secret : String) (now : Nat) (authz : String) :
    Except String customClaims :=
  if goStartsWith authz "Bearer " then
    let raw := goTrimPre authz "Bearer "
    match C.parseTok raw with
    | none => .error "invalid token"
    | some tok =>
      if C.hmac secret tok.claims = tok.sig ∧ now < tok.claims.expiresAt then .ok tok.claims
      else .error "invalid token"
  else .error "missing bearer token"

/-- boardService.CreateBoard (service source, part_001 lines 55 to 67):
trim the title, reject a blank result, otherwise delegate to the store. -/
def boardService.CreateBoard (r : memBoardRepo) (newId : String) (now : Nat)
    (title : String) : (Except String Board) × memBoardRepo :=
  let title := goTrimSpace title
  if title = "" then (.error "title required", r)
  else r.Create newId now title

/-- boardService.UpdateBoard (part_001 lines 70 to 78): same validation,
then delegate to the store update. -/
def boardService.UpdateBoard (r : memBoardRepo) (now : Nat) (id title : String) :
    (Except String Board) × memBoardRepo :=
  let title := goTrimSpace title
  if title = "" then (.error "title required", r)
  else r.Update now id title

/-- BoardHandler.update (internal/http/board_handler.go lines 120 to
144) for a request whose body either failed JSON binding (none) or bound
a title: the handler answers 400 with the message for every error the
service returns, including the not-found error of the store, and 200
with the board on success. -/
def BoardHandler.update (r : memBoardRepo) (now : Nat) (id : String)
    (body : Option String) : (Nat × Except String Board) × memBoardRepo :=
  match body with
  | none => ((400, .error "invalid body"), r)
  | some title =>
    match boardService.UpdateBoard r now id title with
    | (.error msg, r2) => ((400, .error msg), r2)
    | (.ok b, r2) => ((200, .ok b), r2)

/-! Concrete instantiations of the abstract cryptography, used to
evaluate the theorems below on explicit inputs. -/

/-- A toy stand-in for bcrypt.GenerateFromPassword. -/
def toyHash (p : String) : String := "bc:" ++ p

/-- A toy stand-in for the bcrypt verification: accepts exactly the
hashes toyHash produces. -/
def toyVerify (h p : String) : Bool := decide (h = "bc:" ++ p)

/-- A toy stand-in for HMAC-SHA256 over the claims. -/
def toyMac (secret : String) (c : customClaims) : String := secret ++ ":" ++ c.subject

/-- A CryptoModel built from the toy functions, with a scenario-chosen
compact-token parser. -/
def toyCrypto (parse : String → Option SignedToken) : CryptoModel :=
  { bhash := toyHash, bverify := toyVerify, hmac := toyMac,
    encode := fun _ => "tok", parseTok := parse }

/-- The claims of the token the round-trip scenario issues at login
time 1 with TTL 10 for the user registered from " Alice@Example.COM ". -/
def claims0 : customClaims :=
  { email := "alice@example.com", subject := "id1", issuedAt := 1, expiresAt := 11,
    issuer := "kanban_api" }

/-- The token the round-trip scenario expects back from login. -/
def tok0 : SignedToken := { claims := claims0, sig := toyMac "sec" claims0 }

/-- The crypto of the round-trip scenario: its parser returns the login
token for every raw string, inverting the constant encoder on it. -/
def crypto0 : CryptoModel := toyCrypto (fun _ => some tok0)

/-- The user created by Register in the round-trip scenario. -/
def u0 : User :=
  { ID := "id1", Email := "alice@example.com", PasswordHash := "bc:pw", CreatedAt := 0 }

/-- The token Register itself returns in the round-trip scenario
(issued at time 0). -/
def tokR0 : SignedToken :=
  { claims := { email := "alice@example.com", subject := "id1", issuedAt := 0, expiresAt := 10,
                issuer := "kanban_api" },
    sig := toyMac "sec" { email := "alice@example.com", subject := "id1", issuedAt := 0,
                          expiresAt := 10, issuer := "kanban_api" } }

/-- The user store after Register in the round-trip scenario. -/
def r20 : memUserRepo :=
  { users := [("id1", u0)], emailIdx := [("alice@example.com", "id1")] }

/-- A one-user store used by the login-indistinguishability scenario. -/
def uW2 : User :=
  { ID := "u1", Email := "bob@x.com", PasswordHash := "bc:right", CreatedAt := 0 }

/-- The store holding exactly uW2. -/
def rW2 : memUserRepo := { users := [("u1", uW2)], emailIdx := [("bob@x.com", "u1")] }

/-- A crypto whose parser rejects every raw token string. -/
def cryptoNone : CryptoModel := toyCrypto (fun _ => none)

/-- Claims of a token carried with a forged signature. -/
def claimsBad : customClaims :=
  { email := "e@x.com", subject := "u9", issuedAt := 100, expiresAt := 110,
    issuer := "kanban_api" }

/-- A token whose signature segment does not match the MAC of its
claims under the secret sec. -/
def tokBad : SignedToken := { claims := claimsBad, sig := "forged" }

/-- A crypto whose parser yields the forged-signature token. -/
def cryptoBad : CryptoModel := toyCrypto (fun _ => some tokBad)

/-- A genuinely signed token issued at 100 with TTL 10 under secret sec. -/
def tokTTL : SignedToken := { claims := claimsBad, sig := toyMac "sec" claimsBad }

/-- A crypto whose parser yields the genuinely signed token. -/
def cryptoTTL : CryptoModel := toyCrypto (fun _ => some tokTTL)

/-- The user behind tokTTL. -/
def u9 : User :=
  { ID := "u9", Email := "e@x.com", PasswordHash := "bc:p9", CreatedAt := 90 }

/-- A board used by the update, delete and handler scenarios. -/
def bW5 : Board := { ID := "b1", Title := "Old", CreatedAt := 2, UpdatedAt := 2 }

/-- The board store holding exactly bW5. -/
def rW5 : memBoardRepo := { boards := [("b1", bW5)] }

/-! Helper lemmas about the string and map embeddings. -/

/-- String concatenation appends the underlying character lists. -/
theorem data_append (s t : String) : (s ++ t).data = s.data ++ t.data := by
  cases s; cases t; rfl

/-- A list is a prefix of itself followed by anything. -/
theorem isPre_append {α : Type} [BEq α] [LawfulBEq α] (l t : List α) :
    l.isPrefixOf (l ++ t) = true := by
  induction l with
  | nil => simp [List.isPrefixOf]
  | cons a as ih => simp [List.isPrefixOf, ih]

/-- A header built by putting the Bearer scheme in front of a raw token
satisfies the scheme check of the middleware. -/
theorem goStartsWith_bearer (s : String) : goStartsWith ("Bearer " ++ s) "Bearer " = true := by
  simp [goStartsWith, data_append, isPre_append]

/-- Stripping the Bearer scheme recovers the raw token. -/
theorem goTrimPre_bearer (s : String) : goTrimPre ("Bearer " ++ s) "Bearer " = s := by
  simp [goTrimPre, goStartsWith_bearer, data_append]

/-- Erasing a key removes it from the map. -/
theorem mapFind_mapErase_self {α : Type} (m : List (String × α)) (k : String) :
    mapFind (mapErase m k) k = none := by
  induction m with
  | nil => rfl
  | cons p m ih => by_cases h : p.1 = k <;> simp [mapErase, mapFind, h, ih]

/-- Erasing a key leaves every other key untouched. -/
theorem mapFind_mapErase_ne {α : Type} (m : List (String × α)) (k k2 : String) (h : k2 ≠ k) :
    mapFind (mapErase m k) k2 = mapFind m k2 := by
  induction m with
  | nil => rfl
  | cons p m ih =>
    by_cases hp : p.1 = k
    · rw [show mapErase (p :: m) k = mapErase m k by simp [mapErase, hp], ih,
        show mapFind (p :: m) k2 = mapFind m k2 by
          simp only [mapFind, hp]
          rw [if_neg (fun hh => h hh.symm)]]
    · rw [show mapErase (p :: m) k = p :: mapErase m k by simp [mapErase, hp]]
      by_cases hk : p.1 = k2 <;> simp [mapFind, hk, ih]

/-- Inserting binds the key to the value. -/
theorem mapFind_mapInsert_self {α : Type} (m : List (String × α)) (k : String) (v : α) :
    mapFind (mapInsert m k v) k = some v := by
  simp [mapInsert, mapFind]

/-- Inserting a key leaves every other key untouched. -/
theorem mapFind_mapInsert_ne {α : Type} (m : List (String × α)) (k k2 : String) (v : α)
    (h : k2 ≠ k) : mapFind (mapInsert m k v) k2 = mapFind m k2 := by
  simp only [mapInsert, mapFind, if_neg (fun hh : k = k2 => h hh.symm)]
  exact mapFind_mapErase_ne m k k2 h

/-! The claims. -/

/-- Claim C1: the claim states that every User Store variant rejects a
second Create with an email already present, failing with AlreadyExists
and leaving the store unchanged. The SQLite variant violates this: its
Create performs no email check at all (and the email column carries no
uniqueness constraint), so with a user of email a@x.com already in the
table, a second Create with the same email succeeds with a nil error and
leaves two rows holding that email. -/
theorem sqlite_user_create_duplicate_email_succeeds :
    (sqliteUserRep.Create
        [{ ID := "id-a", Email := "a@x.com", PasswordHash := "h1", CreatedAt := 0 }]
        "id-b" 5 "a@x.com" "h2").1 =
      .ok { ID := "id-b", Email := "a@x.com", PasswordHash := "h2", CreatedAt := 5 } ∧
    ((sqliteUserRep.Create
        [{ ID := "id-a", Email := "a@x.com", PasswordHash := "h1", CreatedAt := 0 }]
        "id-b" 5 "a@x.com" "h2").2.filter (fun q => decide (q.Email = "a@x.com"))).length = 2 :=
  ⟨rfl, rfl⟩

/-- Claim C4: CreateBoard and UpdateBoard trim the title first; when the
trimmed title is blank they fail with the title-required InvalidInput
error and leave the store exactly as it was, and otherwise the stored
board carries the trimmed title. -/
theorem board_title_trim_validation (r : memBoardRepo) (newId : String) (now : Nat)
    (id title : String) :
    (goTrimSpace title = "" →
      boardService.CreateBoard r newId now title = (.error "title required", r) ∧
      boardService.UpdateBoard r now id title = (.error "title required", r)) ∧
    (goTrimSpace title ≠ "" →
      (boardService.CreateBoard r newId now title).1 =
        .ok { ID := newId, Title := goTrimSpace title, CreatedAt := now, UpdatedAt := now } ∧
      mapFind (boardService.CreateBoard r newId now title).2.boards newId =
        some { ID := newId, Title := goTrimSpace title, CreatedAt := now, UpdatedAt := now }) ∧
    (∀ b0, goTrimSpace title ≠ "" → mapFind r.boards id = some b0 →
      (boardService.UpdateBoard r now id title).1 =
        .ok { b0 with Title := goTrimSpace title, UpdatedAt := now } ∧
      mapFind (boardService.UpdateBoard r now id title).2.boards id =
        some { b0 with Title := goTrimSpace title, UpdatedAt := now }) := by
  refine ⟨fun hblank => ?_, fun hok => ?_, fun b0 hok hfind => ?_⟩
  · constructor <;>
      simp [boardService.CreateBoard, boardService.UpdateBoard, hblank]
  · constructor <;>
      simp [boardService.CreateBoard, memBoardRepo.Create, hok, mapFind_mapInsert_self]
  · constructor <;>
      simp [boardService.UpdateBoard, memBoardRepo.Update, hok, hfind, mapFind_mapInsert_self]

/-- Witness for C4 at concrete inputs: the blank titles of the spec
examples fail, and the padded title is stored trimmed. -/
theorem board_title_trim_validation_witness :
    boardService.CreateBoard { boards := [] } "b1" 3 "" = (.error "title required",
      { boards := [] }) ∧
    boardService.CreateBoard { boards := [] } "b1" 3 "  " = (.error "title required",
      { boards := [] }) ∧
    (boardService.CreateBoard { boards := [] } "b1" 3 "  My Board  ").1 =
      .ok { ID := "b1", Title := "My Board", CreatedAt := 3, UpdatedAt := 3 } :=
  ⟨((board_title_trim_validation { boards := [] } "b1" 3 "x" "").1 (by decide)).1,
   ((board_title_trim_validation { boards := [] } "b1" 3 "x" "  ").1 (by decide)).1,
   ((board_title_trim_validation { boards := [] } "b1" 3 "x" "  My Board  ").2.1
      (by decide)).1⟩

/-- Claim C6: Delete on the in-memory board store fails with NotFound
when the id is absent, and after a successful Delete a Get of the same
id on the resulting state fails with NotFound. -/
theorem board_delete_then_get (r : memBoardRepo) (id : String) :
    (mapFind r.boards id = none → r.Delete id = (.error ErrNotFound, r)) ∧
    (∀ b, mapFind r.boards id = some b →
      (r.Delete id).1 = .ok () ∧ (r.Delete id).2.Get id = .error ErrNotFound) := by
  refine ⟨fun habs => ?_, fun b hfind => ?_⟩
  · simp [memBoardRepo.Delete, habs]
  · refine ⟨by simp [memBoardRepo.Delete, hfind], ?_⟩
    simp [memBoardRepo.Delete, hfind, memBoardRepo.Get, mapFind_mapErase_self]

/-- Witness for C6: deleting the present board b1 succeeds and a Get of
b1 afterwards is NotFound; deleting the absent id zz is NotFound. -/
theorem board_delete_then_get_witness :
    ((rW5.Delete "b1").1 = .ok () ∧ (rW5.Delete "b1").2.Get "b1" = .error ErrNotFound) ∧
    rW5.Delete "zz" = (.error ErrNotFound, rW5) :=
  ⟨(board_delete_then_get rW5 "b1").2 bW5 rfl,
   (board_delete_then_get rW5 "zz").1 rfl⟩

/-- Claim C8: the claim states that the PUT board handler maps a
title-validation failure to 400 and a NotFound failure of the store to
404. The code maps every service error, the not-found error included, to
400: with an empty store, updating the absent id missing with a valid
title answers 400 carrying the not-found message, not 404. The blank
title does answer 400 as claimed. -/
theorem board_update_handler_status_codes :
    (BoardHandler.update { boards := [] } 7 "missing" (some "New Title")).1 =
      (400, .error ErrNotFound) ∧
    (BoardHandler.update rW5 7 "b1" (some "   ")).1 = (400, .error "title required") :=
  ⟨rfl, rfl⟩

/-- Claim C9: the SQLite GetByEmail returns NotFound exactly when no row
matches the email, and on any other database error it returns the
zero-value user together with a nil error instead of propagating the
failure. -/
theorem sqlite_getbyemail_swallows_db_errors (msg : String) (table : List User)
    (email : String) :
    sqliteUserRep.GetByEmail (.otherErr msg) = .ok User.zeroValue ∧
    sqliteUserRep.GetByEmail .recordNotFound = .error ErrNotFound ∧
    (sqliteUserRep.GetByEmail (dbFirstUserByEmail table email) = .error ErrNotFound ↔
      table.find? (fun q => decide (q.Email = email)) = none) := by
  refine ⟨rfl, rfl, ?_⟩
  unfold dbFirstUserByEmail
  cases hfind : table.find? (fun q => decide (q.Email = email)) with
  | none => simp [sqliteUserRep.GetByEmail]
  | some q => simp [sqliteUserRep.GetByEmail, ErrNotFound]

/-- Witness for C9: a disk error surfaces as a successful lookup of the
zero-value user, while an unmatched email surfaces as NotFound. -/
theorem sqlite_getbyemail_swallows_db_errors_witness :
    sqliteUserRep.GetByEmail (.otherErr "disk I/O error") = .ok User.zeroValue ∧
    sqliteUserRep.GetByEmail (dbFirstUserByEmail [] "a@x.com") = .error ErrNotFound :=
  ⟨(sqlite_getbyemail_swallows_db_errors "disk I/O error" [] "a@x.com").1,
   (sqlite_getbyemail_swallows_db_errors "disk I/O error" [] "a@x.com").2.2.mpr rfl⟩

/-- Claim C2: a login against an email absent from the store and a login
against a registered user with a password the bcrypt verification
rejects return the one generic invalid-credentials error, and the two
full results are equal, so the caller cannot tell the causes apart. -/
theorem login_error_indistinguishable (s : authService) (C : CryptoModel) (r : memUserRepo)
    (now1 now2 : Nat) (eAbsent eWrong pw1 pw2 : String) (u : User)
    (habs : mapFind r.emailIdx (normalizeEmail eAbsent) = none)
    (hfound : r.GetByEmail (normalizeEmail eWrong) = .ok u)
    (hbad : C.bverify u.PasswordHash pw2 = false) :
    s.Login C r now1 eAbsent pw1 = .error "invalid credentials" ∧
    s.Login C r now2 eWrong pw2 = .error "invalid credentials" ∧
    s.Login C r now1 eAbsent pw1 = s.Login C r now2 eWrong pw2 := by
  have h1 : s.Login C r now1 eAbsent pw1 = .error "invalid credentials" := by
    simp [authService.Login, memUserRepo.GetByEmail, habs]
  have h2 : s.Login C r now2 eWrong pw2 = .error "invalid credentials" := by
    simp [authService.Login, hfound, hbad]
  exact ⟨h1, h2, h1.trans h2.symm⟩

/-- Witness for C2: in the one-user store, a login with an unknown email
and a login with the stored email but a wrong password produce the same
generic error. -/
theorem login_error_indistinguishable_witness :
    authService.Login ⟨"sec", 10⟩ cryptoNone rW2 3 "ghost@x.com" "whatever" =
      .error "invalid credentials" ∧
    authService.Login ⟨"sec", 10⟩ cryptoNone rW2 4 " Bob@X.com " "wrong" =
      .error "invalid credentials" :=
  ⟨(login_error_indistinguishable ⟨"sec", 10⟩ cryptoNone rW2 3 4 "ghost@x.com" " Bob@X.com "
      "whatever" "wrong" uW2 rfl rfl rfl).1,
   (login_error_indistinguishable ⟨"sec", 10⟩ cryptoNone rW2 3 4 "ghost@x.com" " Bob@X.com "
      "whatever" "wrong" uW2 rfl rfl rfl).2.1⟩

/-- Claim C5: for both store variants, Update fails with NotFound when
the id is absent, and on a present id it returns the stored board with
the new title and UpdatedAt set to now while ID and CreatedAt are
unchanged, leaving every other board untouched. -/
theorem board_update_frame (r : memBoardRepo) (table : List Board) (now : Nat)
    (id title : String) :
    (mapFind r.boards id = none → r.Update now id title = (.error ErrNotFound, r)) ∧
    (∀ b0, mapFind r.boards id = some b0 →
      r.Update now id title =
        (.ok { b0 with Title := title, UpdatedAt := now },
         { boards := mapInsert r.boards id { b0 with Title := title, UpdatedAt := now } }) ∧
      Board.ID { b0 with Title := title, UpdatedAt := now } = b0.ID ∧
      Board.CreatedAt { b0 with Title := title, UpdatedAt := now } = b0.CreatedAt ∧
      ∀ id2, id2 ≠ id →
        mapFind (r.Update now id title).2.boards id2 = mapFind r.boards id2) ∧
    (table.find? (fun b => decide (b.ID = id)) = none →
      sqliteBoardRepo.Update table now id title = (.error ErrNotFound, table)) ∧
    (∀ b0, table.find? (fun b => decide (b.ID = id)) = some b0 →
      (sqliteBoardRepo.Update table now id title).1 =
        .ok { b0 with Title := title, UpdatedAt := now } ∧
      ∀ q ∈ table, q.ID ≠ id → q ∈ (sqliteBoardRepo.Update table now id title).2) := by
  refine ⟨fun habs => ?_, fun b0 hfind => ⟨?_, rfl, rfl, fun id2 hne => ?_⟩,
    fun habs => ?_, fun b0 hfind => ⟨?_, fun q hq hqid => ?_⟩⟩
  · simp [memBoardRepo.Update, habs]
  · simp [memBoardRepo.Update, hfind]
  · simp [memBoardRepo.Update, hfind, mapFind_mapInsert_ne _ _ _ _ hne]
  · simp [sqliteBoardRepo.Update, habs]
  · simp [sqliteBoardRepo.Update, hfind]
  · simp only [sqliteBoardRepo.Update, hfind]
    exact List.mem_map.mpr ⟨q, hq, by simp [hqid]⟩

/-- Witness for C5: updating b1 at time 9 keeps ID and CreatedAt and
rewrites Title and UpdatedAt, an absent id is NotFound, and the same
holds for the relational variant on the one-row table. -/
theorem board_update_frame_witness :
    rW5.Update 9 "b1" "New" =
      (.ok { ID := "b1", Title := "New", CreatedAt := 2, UpdatedAt := 9 },
       { boards := mapInsert rW5.boards "b1"
          { ID := "b1", Title := "New", CreatedAt := 2, UpdatedAt := 9 } }) ∧
    rW5.Update 9 "zz" "New" = (.error ErrNotFound, rW5) ∧
    (sqliteBoardRepo.Update [bW5] 9 "b1" "New").1 =
      .ok { ID := "b1", Title := "New", CreatedAt := 2, UpdatedAt := 9 } ∧
    sqliteBoardRepo.Update [bW5] 9 "zz" "New" = (.error ErrNotFound, [bW5]) :=
  ⟨((board_update_frame rW5 [bW5] 9 "b1" "New").2.1 bW5 rfl).1,
   (board_update_frame rW5 [bW5] 9 "zz" "New").1 rfl,
   ((board_update_frame rW5 [bW5] 9 "b1" "New").2.2.2 bW5 rfl).1,
   (board_update_frame rW5 [bW5] 9 "zz" "New").2.2.1 rfl⟩

/-- Reduction of the middleware on a Bearer header whose raw token the
parser rejects. -/
theorem AuthRequired_parse_none (C : CryptoModel) (secret raw : String) (now : Nat)
    (hp : C.parseTok raw = none) :
    AuthRequired C secret now ("Bearer " ++ raw) = .error "invalid token" := by
  simp [AuthRequired, goStartsWith_bearer, goTrimPre_bearer, hp]

/-- Reduction of the middleware on a Bearer header whose raw token
parses: what remains is the signature and expiry check. -/
theorem AuthRequired_parsed (C : CryptoModel) (secret raw : String) (now : Nat)
    (tok : SignedToken) (hp : C.parseTok raw = some tok) :
    AuthRequired C secret now ("Bearer " ++ raw) =
      if C.hmac secret tok.claims = tok.sig ∧ now < tok.claims.expiresAt then
        Except.ok tok.claims
      else Except.error "invalid token" := by
  simp [AuthRequired, goStartsWith_bearer, goTrimPre_bearer, hp]

/-- Claim C7: the middleware rejects with the missing-bearer-token error
every header that does not carry the Bearer scheme, rejects with the
invalid-token error every token that fails parsing, fails the signature
check under the configured secret, or is expired, and for a token issued
with TTL ttl under the same secret it accepts before issuance plus ttl
and rejects after. -/
theorem auth_middleware_checks (C : CryptoModel) (secret raw authz : String)
    (now now0 ttl : Nat) (u : User) (tok : SignedToken) :
    (goStartsWith authz "Bearer " = false →
      AuthRequired C secret now authz = .error "missing bearer token") ∧
    (C.parseTok raw = none →
      AuthRequired C secret now ("Bearer " ++ raw) = .error "invalid token") ∧
    (C.parseTok raw = some tok → C.hmac secret tok.claims ≠ tok.sig →
      AuthRequired C secret now ("Bearer " ++ raw) = .error "invalid token") ∧
    (C.parseTok raw = some tok → tok.claims.expiresAt ≤ now →
      AuthRequired C secret now ("Bearer " ++ raw) = .error "invalid token") ∧
    (C.parseTok raw = some (authService.issueToken ⟨secret, ttl⟩ C now0 u) →
      (now < now0 + ttl →
        AuthRequired C secret now ("Bearer " ++ raw) =
          .ok (authService.issueToken ⟨secret, ttl⟩ C now0 u).claims) ∧
      (now0 + ttl < now →
        AuthRequired C secret now ("Bearer " ++ raw) = .error "invalid token")) := by
  refine ⟨fun hnopre => ?_, fun hp => ?_, fun hp hsig => ?_, fun hp hexp => ?_,
    fun hp => ⟨fun hlive => ?_, fun hlate => ?_⟩⟩
  · simp [AuthRequired, hnopre]
  · exact AuthRequired_parse_none C secret raw now hp
  · rw [AuthRequired_parsed C secret raw now tok hp]
    exact if_neg (fun hc => hsig hc.1)
  · rw [AuthRequired_parsed C secret raw now tok hp]
    exact if_neg (fun hc => absurd hc.2 (Nat.not_lt.mpr hexp))
  · rw [AuthRequired_parsed C secret raw now _ hp]
    exact if_pos ⟨rfl, hlive⟩
  · rw [AuthRequired_parsed C secret raw now _ hp]
    exact if_neg (fun hc => Nat.lt_irrefl _ (Nat.lt_trans hlate hc.2))

/-- Witness for C7: a header without the Bearer scheme, an unparseable
token, a forged signature, acceptance at time 105 of a token expiring at
110, and rejection of the same token at time 111. -/
theorem auth_middleware_checks_witness :
    AuthRequired cryptoNone "sec" 5 "Token abc" = .error "missing bearer token" ∧
    AuthRequired cryptoNone "sec" 5 ("Bearer " ++ "abc") = .error "invalid token" ∧
    AuthRequired cryptoBad "sec" 105 ("Bearer " ++ "abc") = .error "invalid token" ∧
    AuthRequired cryptoTTL "sec" 105 ("Bearer " ++ "abc") =
      .ok (authService.issueToken ⟨"sec", 10⟩ cryptoTTL 100 u9).claims ∧
    AuthRequired cryptoTTL "sec" 111 ("Bearer " ++ "abc") = .error "invalid token" :=
  ⟨(auth_middleware_checks cryptoNone "sec" "abc" "Token abc" 5 0 0 u9 tokBad).1 (by decide),
   (auth_middleware_checks cryptoNone "sec" "abc" "" 5 0 0 u9 tokBad).2.1 rfl,
   (auth_middleware_checks cryptoBad "sec" "abc" "" 105 0 0 u9 tokBad).2.2.1 rfl (by decide),
   ((auth_middleware_checks cryptoTTL "sec" "abc" "" 105 100 10 u9 tokBad).2.2.2.2 rfl).1
     (by decide),
   ((auth_middleware_checks cryptoTTL "sec" "abc" "" 111 100 10 u9 tokBad).2.2.2.2 rfl).2
     (by decide)⟩

/-- Inversion of a successful Register: the persisted user carries the
normalized email and the bcrypt hash, the store gained exactly that user
under its fresh id, and the returned token is the one issued for it. -/
theorem Register_ok (s : authService) (C : CryptoModel) (r : memUserRepo) (newId : String)
    (now : Nat) (email password : String) (u : User) (tok : SignedToken) (r2 : memUserRepo)
    (h : s.Register C r newId now email password = (.ok (u, tok), r2)) :
    u = { ID := newId, Email := normalizeEmail email, PasswordHash := C.bhash password,
          CreatedAt := now } ∧
    r2 = { users := mapInsert r.users newId u,
           emailIdx := mapInsert r.emailIdx (normalizeEmail email) newId } ∧
    tok = s.issueToken C now u := by
  unfold authService.Register memUserRepo.Create at h
  by_cases hg : normalizeEmail email = "" ∨ password = ""
  · rw [if_pos hg] at h
    simp [Prod.ext_iff] at h
  · rw [if_neg hg] at h
    cases hfind : mapFind r.emailIdx (normalizeEmail email) with
    | some oid =>
      rw [hfind] at h
      simp [Prod.ext_iff] at h
    | none =>
      rw [hfind] at h
      simp only [Prod.ext_iff, Except.ok.injEq, Prod.mk.injEq] at h
      obtain ⟨⟨hu, htok⟩, hr2⟩ := h
      subst hu
      exact ⟨rfl, hr2.symm, htok.symm⟩

/-- Claim C3: after a successful Register, a Login with the same email
and password on the resulting store succeeds for the same user, and the
token it returns, put behind the Bearer scheme, is accepted by the
middleware under the same secret at any instant before issuance plus
TTL, yielding the registered user id as the subject claim. The bcrypt
and JWT libraries are assumed only to verify what they produced: bverify
accepts the hash of the password, and the compact parser inverts the
encoder on the login token. -/
theorem register_login_token_roundtrip (s : authService) (C : CryptoModel) (r : memUserRepo)
    (newId : String) (now1 now2 now3 : Nat) (email password : String) (u : User)
    (tokR : SignedToken) (r2 : memUserRepo)
    (hreg : s.Register C r newId now1 email password = (.ok (u, tokR), r2))
    (hrt : C.bverify (C.bhash password) password = true)
    (hparse : C.parseTok (C.encode (s.issueToken C now2 u)) = some (s.issueToken C now2 u))
    (hlive : now3 < now2 + s.tokenTTL) :
    s.Login C r2 now2 email password = .ok (u, s.issueToken C now2 u) ∧
    AuthRequired C s.jwtSecret now3 ("Bearer " ++ C.encode (s.issueToken C now2 u)) =
      .ok (s.issueToken C now2 u).claims ∧
    (s.issueToken C now2 u).claims.subject = u.ID := by
  obtain ⟨hu, hr2, -⟩ := Register_ok s C r newId now1 email password u tokR r2 hreg
  have hlogin : s.Login C r2 now2 email password = .ok (u, s.issueToken C now2 u) := by
    subst hr2
    simp only [authService.Login, memUserRepo.GetByEmail, mapFind_mapInsert_self,
      Option.getD_some]
    have hpwh : u.PasswordHash = C.bhash password := by rw [hu]
    rw [hpwh, hrt]
    simp
  refine ⟨hlogin, ?_, rfl⟩
  rw [AuthRequired_parsed C s.jwtSecret (C.encode (s.issueToken C now2 u)) now3 _ hparse]
  exact if_pos ⟨rfl, hlive⟩

/-- Witness for C3: the end-to-end scenario with the padded mixed-case
email, registered at time 0, logged in at time 1 with TTL 10, and the
login token accepted by the middleware at time 5. -/
theorem register_login_token_roundtrip_witness :
    authService.Login ⟨"sec", 10⟩ crypto0 r20 1 " Alice@Example.COM " "pw" =
      .ok (u0, authService.issueToken ⟨"sec", 10⟩ crypto0 1 u0) ∧
    AuthRequired crypto0 "sec" 5
        ("Bearer " ++ crypto0.encode (authService.issueToken ⟨"sec", 10⟩ crypto0 1 u0)) =
      .ok (authService.issueToken ⟨"sec", 10⟩ crypto0 1 u0).claims ∧
    (authService.issueToken ⟨"sec", 10⟩ crypto0 1 u0).claims.subject = u0.ID :=
  register_login_token_roundtrip ⟨"sec", 10⟩ crypto0 memUserRepo.empty "id1" 0 1 5
    " Alice@Example.COM " "pw" u0 tokR0 r20 rfl rfl rfl (by decide)

/-- Claim C10: the in-memory user store normalizes nothing. Two creates
whose emails differ as byte strings (for example two case variants of
one address) both succeed and coexist, GetByEmail answers only under the
exact byte string each user was created with and NotFound under any
other string, and the normalized-email uniqueness discipline lives one
layer up: a successful Register always persists the lowercased trimmed
email, and a successful Login always found the store entry under the
normalized email. -/
theorem mem_store_exact_email_matching (r : memUserRepo) (e1 e2 h1 h2 id1 id2 e : String)
    (n1 n2 : Nat) (hne : e1 ≠ e2) (hid : id1 ≠ id2)
    (ha1 : mapFind r.emailIdx e1 = none) (ha2 : mapFind r.emailIdx e2 = none) :
    ((r.Create id1 n1 e1 h1).1 =
        .ok { ID := id1, Email := e1, PasswordHash := h1, CreatedAt := n1 } ∧
      ((r.Create id1 n1 e1 h1).2.Create id2 n2 e2 h2).1 =
        .ok { ID := id2, Email := e2, PasswordHash := h2, CreatedAt := n2 } ∧
      ((r.Create id1 n1 e1 h1).2.Create id2 n2 e2 h2).2.GetByEmail e1 =
        .ok { ID := id1, Email := e1, PasswordHash := h1, CreatedAt := n1 } ∧
      ((r.Create id1 n1 e1 h1).2.Create id2 n2 e2 h2).2.GetByEmail e2 =
        .ok { ID := id2, Email := e2, PasswordHash := h2, CreatedAt := n2 }) ∧
    (mapFind r.emailIdx e = none → r.GetByEmail e = .error ErrNotFound) ∧
    (∀ (s : authService) (C : CryptoModel) (nid : String) (nw : Nat) (em pw : String)
        (u : User) (tok : SignedToken) (r2 : memUserRepo),
      s.Register C r nid nw em pw = (.ok (u, tok), r2) → u.Email = normalizeEmail em) ∧
    (∀ (s : authService) (C : CryptoModel) (nw : Nat) (em pw : String) (u : User)
        (tok : SignedToken),
      s.Login C r nw em pw = .ok (u, tok) →
        mapFind r.emailIdx (normalizeEmail em) ≠ none) := by
  have hc1 : r.Create id1 n1 e1 h1 =
      (.ok { ID := id1, Email := e1, PasswordHash := h1, CreatedAt := n1 },
       { users := mapInsert r.users id1
           { ID := id1, Email := e1, PasswordHash := h1, CreatedAt := n1 },
         emailIdx := mapInsert r.emailIdx e1 id1 }) := by
    simp [memUserRepo.Create, ha1]
  have ha2b : mapFind (mapInsert r.emailIdx e1 id1) e2 = none := by
    rw [mapFind_mapInsert_ne _ _ _ _ hne.symm, ha2]
  refine ⟨⟨by rw [hc1], ?_, ?_, ?_⟩, fun habs => ?_, ?_, ?_⟩
  · rw [hc1]
    simp [memUserRepo.Create, ha2b]
  · rw [hc1]
    simp only [memUserRepo.Create, ha2b]
    simp only [memUserRepo.GetByEmail, mapFind_mapInsert_ne _ _ _ _ hne,
      mapFind_mapInsert_self, mapFind_mapInsert_ne _ _ _ _ hid, Option.getD_some]
  · rw [hc1]
    simp only [memUserRepo.Create, ha2b]
    simp only [memUserRepo.GetByEmail, mapFind_mapInsert_self, Option.getD_some]
  · simp [memUserRepo.GetByEmail, habs]
  · intro s C nid nw em pw u tok r2 hreg
    obtain ⟨hu, -, -⟩ := Register_ok s C r nid nw em pw u tok r2 hreg
    rw [hu]
  · intro s C nw em pw u tok hlog hnone
    simp only [authService.Login, memUserRepo.GetByEmail, hnone] at hlog
    exact Except.noConfusion hlog

/-- Witness for C10: in the empty store, creating A@x.com and then its
case variant a@x.com both succeed, and each is found only under its own
byte string. -/
theorem mem_store_exact_email_matching_witness :
    ((memUserRepo.empty.Create "u1" 0 "A@x.com" "hA").2.Create "u2" 1 "a@x.com" "hB").1 =
      .ok { ID := "u2", Email := "a@x.com", PasswordHash := "hB", CreatedAt := 1 } ∧
    ((memUserRepo.empty.Create "u1" 0 "A@x.com" "hA").2.Create
        "u2" 1 "a@x.com" "hB").2.GetByEmail "A@x.com" =
      .ok { ID := "u1", Email := "A@x.com", PasswordHash := "hA", CreatedAt := 0 } ∧
    ((memUserRepo.empty.Create "u1" 0 "A@x.com" "hA").2.Create
        "u2" 1 "a@x.com" "hB").2.GetByEmail "a@x.com" =
      .ok { ID := "u2", Email := "a@x.com", PasswordHash := "hB", CreatedAt := 1 } := by
  have h := (mem_store_exact_email_matching memUserRepo.empty "A@x.com" "a@x.com" "hA" "hB"
    "u1" "u2" "zz@x.com" 0 1 (by decide) (by decide) rfl rfl).1
  exact ⟨h.2.1, h.2.2.1, h.2.2.2⟩

end Kanban
